import Mathlib

/-!
Verification of `src/Noema/fix_tokenizer.py` (tokenizer mojibake repair tool).

A Python string is modelled as a list of Unicode code points (`List Char`).
Every function below is a direct shallow embedding of the correspondingly
named function of the source file; stateful orchestration (`main`) is
embedded as a pure function from an abstract run input to a run result
that records the exit code, the file-write events and the accumulated
validation errors, in program order.
-/

namespace FixTok

/-- Python `str` values: sequences of Unicode code points. -/
abbrev PyStr := List Char

/-- Models `FULLWIDTH_BAR = "｜"` (source line 13). -/
def FULLWIDTH_BAR : Char := '｜'

/-- Models `SPM_BLOCK = "▁"` (source line 14). -/
def SPM_BLOCK : Char := '▁'

/-- Models `CANON_BOS` (source line 15). -/
def CANON_BOS : PyStr := "<｜begin▁of▁sentence｜>".data

/-- Models `CANON_EOS` (source line 16). -/
def CANON_EOS : PyStr := "<｜end▁of▁sentence｜>".data

/-- Models `CANON_USER` (source line 17). -/
def CANON_USER : PyStr := "<｜User｜>".data

/-- Models `CANON_ASSISTANT` (source line 18). -/
def CANON_ASSISTANT : PyStr := "<｜Assistant｜>".data

/-- Models `ZERO_WIDTHS` (source lines 21-31). -/
def ZERO_WIDTHS : List Char :=
  ['﻿', '​', '⁠', '‍', '‌', '‎', '‏', '︎', '️']

/-- Models `SPACE_VARIANTS` (source lines 34-39). -/
def SPACE_VARIANTS : List Char := [' ', ' ', ' ', ' ']

/-- Models `CURLY_TO_ASCII` (source lines 42-47), as a partial mapping. -/
def curlyToAscii (c : Char) : Option Char :=
  if c = '‘' then some '\x27'
  else if c = '’' then some '\x27'
  else if c = '“' then some '"'
  else if c = '”' then some '"'
  else none

/-- Models `DASHES_TO_ASCII_HYPHEN` (source lines 48-53). -/
def DASHES_TO_ASCII_HYPHEN : List Char := ['‐', '‑', '–', '—']

/-! ### Byte-level codecs used by `demojibake_and_normalize`

`str.encode(..., errors="ignore")` and `bytes.decode("utf-8", errors="ignore")`
never raise: unencodable code points are dropped, and an invalid UTF-8 byte
sequence is skipped as the maximal valid subpart of a sequence (CPython's
error-range rule), resuming at the first offending byte. -/

/-- Models `s.encode("latin-1", errors="ignore")`: code points up to 0xFF become that
single byte, larger code points are dropped. -/
def encodeLatin1Ignore (s : PyStr) : List Nat :=
  s.flatMap (fun c => if c.toNat ≤ 0xFF then [c.toNat] else [])

/-- Models `s.encode("cp1252", errors="ignore")`: ASCII and 0xA0-0xFF code identically;
the 0x80-0x9F row holds the Windows-1252 specials; code points without a
cp1252 byte (including U+0080-U+009F, as bytes 0x81, 0x8D, 0x8F, 0x90 and
0x9D are undefined in cp1252) are dropped. -/
def cp1252ByteOfChar (c : Char) : Option Nat :=
  let n := c.toNat
  if n ≤ 0x7F then some n
  else if 0xA0 ≤ n ∧ n ≤ 0xFF then some n
  else if n = 0x20AC then some 0x80
  else if n = 0x201A then some 0x82
  else if n = 0x0192 then some 0x83
  else if n = 0x201E then some 0x84
  else if n = 0x2026 then some 0x85
  else if n = 0x2020 then some 0x86
  else if n = 0x2021 then some 0x87
  else if n = 0x02C6 then some 0x88
  else if n = 0x2030 then some 0x89
  else if n = 0x0160 then some 0x8A
  else if n = 0x2039 then some 0x8B
  else if n = 0x0152 then some 0x8C
  else if n = 0x017D then some 0x8E
  else if n = 0x2018 then some 0x91
  else if n = 0x2019 then some 0x92
  else if n = 0x201C then some 0x93
  else if n = 0x201D then some 0x94
  else if n = 0x2022 then some 0x95
  else if n = 0x2013 then some 0x96
  else if n = 0x2014 then some 0x97
  else if n = 0x02DC then some 0x98
  else if n = 0x2122 then some 0x99
  else if n = 0x0161 then some 0x9A
  else if n = 0x203A then some 0x9B
  else if n = 0x0153 then some 0x9C
  else if n = 0x017E then some 0x9E
  else if n = 0x0178 then some 0x9F
  else none

/-- Models `s.encode("cp1252", errors="ignore")`. -/
def encodeCp1252Ignore (s : PyStr) : List Nat :=
  s.flatMap (fun c => match cp1252ByteOfChar c with | some b => [b] | none => [])

/-- Continuation byte test for UTF-8. -/
def isUtf8Cont (b : Nat) : Bool := decide (0x80 ≤ b ∧ b ≤ 0xBF)

/-- Fuel-indexed UTF-8 decoder with `errors="ignore"`; each step consumes at
least one byte, so fuel equal to the byte count is always sufficient. An
invalid sequence is skipped as its maximal valid subpart (the CPython rule);
truncated sequences at end of input produce nothing. -/
def utf8DecodeAux : Nat → List Nat → PyStr
  | _, [] => []
  | 0, _ => []
  | fuel+1, b :: rest =>
    if b < 0x80 then Char.ofNat b :: utf8DecodeAux fuel rest
    else if 0xC2 ≤ b ∧ b ≤ 0xDF then
      match rest with
      | b1 :: rest1 =>
        if isUtf8Cont b1 then
          Char.ofNat ((b - 0xC0) * 0x40 + (b1 - 0x80)) :: utf8DecodeAux fuel rest1
        else utf8DecodeAux fuel rest
      | [] => []
    else if 0xE0 ≤ b ∧ b ≤ 0xEF then
      match rest with
      | b1 :: rest1 =>
        if (if b = 0xE0 then 0xA0 else 0x80) ≤ b1 ∧ b1 ≤ (if b = 0xED then 0x9F else 0xBF) then
          match rest1 with
          | b2 :: rest2 =>
            if isUtf8Cont b2 then
              Char.ofNat ((b - 0xE0) * 0x1000 + (b1 - 0x80) * 0x40 + (b2 - 0x80)) ::
                utf8DecodeAux fuel rest2
            else utf8DecodeAux fuel rest1
          | [] => []
        else utf8DecodeAux fuel rest
      | [] => []
    else if 0xF0 ≤ b ∧ b ≤ 0xF4 then
      match rest with
      | b1 :: rest1 =>
        if (if b = 0xF0 then 0x90 else 0x80) ≤ b1 ∧ b1 ≤ (if b = 0xF4 then 0x8F else 0xBF) then
          match rest1 with
          | b2 :: rest2 =>
            if isUtf8Cont b2 then
              match rest2 with
              | b3 :: rest3 =>
                if isUtf8Cont b3 then
                  Char.ofNat ((b - 0xF0) * 0x40000 + (b1 - 0x80) * 0x1000 +
                    (b2 - 0x80) * 0x40 + (b3 - 0x80)) :: utf8DecodeAux fuel rest3
                else utf8DecodeAux fuel rest2
              | [] => []
            else utf8DecodeAux fuel rest1
          | [] => []
        else utf8DecodeAux fuel rest
      | [] => []
    else utf8DecodeAux fuel rest

/-- Models `bytes.decode("utf-8", errors="ignore")`. -/
def utf8DecodeIgnore (bs : List Nat) : PyStr := utf8DecodeAux bs.length bs

/-! ### Python string primitives -/

/-- Does `pat` occur at the very start of `s`? -/
def startsWithSeg : PyStr → PyStr → Bool
  | [], _ => true
  | _ :: _, [] => false
  | p :: ps, c :: cs => p == c && startsWithSeg ps cs

/-- Models `pat in s` (Python substring containment). -/
def hasSeg (pat : PyStr) : PyStr → Bool
  | [] => startsWithSeg pat []
  | c :: cs => startsWithSeg pat (c :: cs) || hasSeg pat cs

/-- Fuel-indexed worker for `str.replace` with a non-empty pattern: scan left
to right; on a match emit the replacement and resume after the matched text,
otherwise emit one character. Each step consumes at least one character, so
fuel equal to the length is sufficient. -/
def replaceAux (pat rep : PyStr) : Nat → PyStr → PyStr
  | _, [] => []
  | 0, s => s
  | fuel+1, c :: cs =>
    if startsWithSeg pat (c :: cs) then
      rep ++ replaceAux pat rep fuel (List.drop (pat.length - 1) cs)
    else c :: replaceAux pat rep fuel cs

/-- Models `s.replace(pat, rep)`: leftmost non-overlapping replacement; an empty
pattern interleaves the replacement around every character, as in Python. -/
def pyReplace (s pat rep : PyStr) : PyStr :=
  match pat with
  | [] => rep ++ s.flatMap (fun c => c :: rep)
  | _ :: _ => replaceAux pat rep s.length s

/-- Python `str.isspace` for a single character (Unicode whitespace plus the
ASCII separators 0x1C-0x1F). -/
def pyIsSpace (c : Char) : Bool :=
  let n := c.toNat
  decide ((0x09 ≤ n ∧ n ≤ 0x0D) ∨ (0x1C ≤ n ∧ n ≤ 0x1F) ∨ n = 0x20 ∨ n = 0x85 ∨
    n = 0xA0 ∨ n = 0x1680 ∨ (0x2000 ≤ n ∧ n ≤ 0x200A) ∨ n = 0x2028 ∨ n = 0x2029 ∨
    n = 0x202F ∨ n = 0x205F ∨ n = 0x3000)

/-- Models `s.strip()`: drop whitespace from both ends. -/
def pyStrip (s : PyStr) : PyStr :=
  ((s.dropWhile pyIsSpace).reverse.dropWhile pyIsSpace).reverse

/-! ### `demojibake_and_normalize` (source lines 56-80) -/

/-- The corrupted-bar literal `"ï½œ"` of source lines 70/75/166:
U+00EF U+00BD U+0153. -/
def remnantBar : PyStr := "ï½œ".data

/-- The corrupted-block literal written `"â–\x81"` in the source:
U+00E2 U+2013 U+0081. -/
def remnantBlockA : PyStr := "â–\u0081".data

/-- The second corrupted-block literal of the source, written with a raw
U+0081 byte after `"â–"`; its code points are the same three as
`remnantBlockA` (checked against the raw bytes of the source file). -/
def remnantBlockB : PyStr := "â–\u0081".data

/-- The direct-replacement candidate (source line 70):
`s.replace("ï½œ", "｜").replace("â–\x81", "▁").replace("â–", "▁")`. -/
def directRepl (s : PyStr) : PyStr :=
  pyReplace (pyReplace (pyReplace s remnantBar [FULLWIDTH_BAR])
    remnantBlockA [SPM_BLOCK]) remnantBlockB [SPM_BLOCK]

/-- Models `score` (source lines 73-77): count of residual corrupted substrings
(ascending), then count of the two target special characters (descending,
encoded as a negated integer). The two block remnant literals are the same
string, so its presence is counted twice. -/
def score (t : PyStr) : Nat × Int :=
  ((hasSeg remnantBar t).toNat + (hasSeg remnantBlockA t).toNat +
     (hasSeg remnantBlockB t).toNat,
   -((t.count FULLWIDTH_BAR + t.count SPM_BLOCK : Nat) : Int))

/-- Strict lexicographic comparison of score tuples, as Python compares
`Tuple[int, int]`. -/
def scoreLt (a b : Nat × Int) : Bool :=
  decide (a.1 < b.1) || (decide (a.1 = b.1) && decide (a.2 < b.2))

/-- CPython `min(x :: xs, key=f)`: fold keeping the current best, replacing it
only on a strictly smaller key, hence the earliest minimum wins ties. -/
def pyMinBy (f : PyStr → Nat × Int) (x : PyStr) (xs : List PyStr) : PyStr :=
  xs.foldl (fun best c => if scoreLt (f c) (f best) then c else best) x

/-- Models `unicodedata.normalize("NFC", s)`. Unicode canonical composition
is the identity on every string whose code points are combining-class-0
starters that are canonically equivalent to themselves and start no
composition with what follows; every code point that occurs in this
development's strings (ASCII, Latin-1 letters and signs, general
punctuation, the zero-width marks, U+2581 and U+FF5C) is in that class, so
the model is the identity map. -/
def nfcNormalize (s : PyStr) : PyStr := s

/-- The candidate list of `demojibake_and_normalize` (source lines 60-71).
Both `encode(..., errors="ignore")` calls are total, so the `except` arms
(append the original string, resp. skip) are dead and the list always has
exactly these three members, in this order. -/
def demojCandidates (s : PyStr) : List PyStr :=
  [utf8DecodeIgnore (encodeLatin1Ignore s),
   utf8DecodeIgnore (encodeCp1252Ignore s),
   directRepl s]

/-- Models `demojibake_and_normalize` (source lines 56-80): pick the score-minimal
candidate (earliest on ties, as CPython `min`) and NFC-normalize it. -/
def demojibake_and_normalize (s : PyStr) : PyStr :=
  nfcNormalize (pyMinBy score (utf8DecodeIgnore (encodeLatin1Ignore s))
    [utf8DecodeIgnore (encodeCp1252Ignore s), directRepl s])

/-! ### Structural cleaner and marker canonicalizer (source lines 83-161) -/

/-- Models `strip_zero_width_and_variation` (source lines 83-86). -/
def strip_zero_width_and_variation (s : PyStr) : PyStr :=
  s.filter (fun ch => !(ZERO_WIDTHS.contains ch))

/-- Models `normalize_space_dash_quotes_inside` (source lines 89-102). -/
def normalize_space_dash_quotes_inside (s : PyStr) : PyStr :=
  s.map (fun ch =>
    if SPACE_VARIANTS.contains ch then ' '
    else match curlyToAscii ch with
    | some r => r
    | none => if DASHES_TO_ASCII_HYPHEN.contains ch then '-' else ch)

/-- Models `standardize_line_endings` (source lines 105-106). -/
def standardize_line_endings (s : PyStr) : PyStr :=
  pyReplace (pyReplace s ['\r', '\n'] ['\n']) ['\r'] ['\n']

/-- Models `is_angle_bracketed` (source lines 109-110); the argument is always a
string in this model, so the `isinstance` test is identically true. -/
def is_angle_bracketed (s : PyStr) : Bool :=
  decide (2 ≤ s.length) && (s.head? == some '<') && (s.getLast? == some '>')

/-- The four payload strings of the dictionary in
`looks_like_one_of_four_chat_markers` (source lines 151-156). -/
def payloadBOS : PyStr := "｜begin▁of▁sentence｜".data

/-- Payload of the EndOfSequence marker. -/
def payloadEOS : PyStr := "｜end▁of▁sentence｜".data

/-- Payload of the UserTurn marker. -/
def payloadUSER : PyStr := "｜User｜".data

/-- Payload of the AssistantTurn marker. -/
def payloadASSISTANT : PyStr := "｜Assistant｜".data

/-- Models `inner.replace("|", FULLWIDTH_BAR)` (source line 149): a one-character
pattern and one-character replacement, hence a character map. -/
def substAsciiBar (s : PyStr) : PyStr :=
  s.map (fun ch => if ch = '|' then FULLWIDTH_BAR else ch)

/-- Models `looks_like_one_of_four_chat_markers` (source lines 131-161): the
dictionary literal with four distinct keys and `dict.get` become an
equality chain over the four payloads. -/
def looks_like_one_of_four_chat_markers (s : PyStr) : Bool × PyStr :=
  if s.length < 3 then (false, s)
  else if s.head? == some '<' && s.getLast? == some '>' && decide (2 ≤ s.length) then
    let innerCmp := substAsciiBar ((s.drop 1).dropLast)
    if innerCmp = payloadBOS then (true, CANON_BOS)
    else if innerCmp = payloadEOS then (true, CANON_EOS)
    else if innerCmp = payloadUSER then (true, CANON_USER)
    else if innerCmp = payloadASSISTANT then (true, CANON_ASSISTANT)
    else (false, s)
  else (false, s)

/-- Models `cleanup_marker_like_string` (source lines 113-128). -/
def cleanup_marker_like_string (s : PyStr) : PyStr :=
  let t := demojibake_and_normalize s
  let t := strip_zero_width_and_variation t
  let t := standardize_line_endings t
  let t := normalize_space_dash_quotes_inside t
  let t := pyStrip t
  let r := looks_like_one_of_four_chat_markers t
  if r.1 then r.2 else t

/-- The per-token-content pipeline of `main` (source lines 296-302): repair,
then the full cleanup when the repaired result is angle-bracketed. -/
def tokenContentPipeline (s : PyStr) : PyStr :=
  let mid := demojibake_and_normalize s
  if is_angle_bracketed mid then cleanup_marker_like_string mid else mid

/-! ### `fix_markers_in_text` (source lines 196-218) -/

/-- Split at the first `'>'`: `splitAtGt l = some (a, b)` when `l = a ++ '>' :: b`
with no `'>'` in `a`; `none` when `l` has no `'>'` (models `t.find('>', i+1)`). -/
def splitAtGt : PyStr → Option (PyStr × PyStr)
  | [] => none
  | c :: cs =>
    if c = '>' then some ([], cs)
    else match splitAtGt cs with
    | some (a, b) => some (c :: a, b)
    | none => none

/-- Fuel-indexed scanner of `fix_markers_in_text` (source lines 204-218):
at a `'<'` with a later `'>'`, the whole `<...>` segment goes through
`cleanup_marker_like_string`; otherwise one character is copied. Each step
consumes at least one character, so fuel equal to the length suffices. -/
def scanSegs : Nat → PyStr → PyStr
  | _, [] => []
  | 0, s => s
  | fuel+1, c :: cs =>
    if c = '<' then
      match splitAtGt cs with
      | some (seg, rest2) =>
        cleanup_marker_like_string ('<' :: seg ++ ['>']) ++ scanSegs fuel rest2
      | none => c :: scanSegs fuel cs
    else c :: scanSegs fuel cs

/-- Models `fix_markers_in_text` (source lines 196-218). -/
def fix_markers_in_text (s : PyStr) : PyStr :=
  let t := demojibake_and_normalize s
  let t := strip_zero_width_and_variation t
  let t := standardize_line_endings t
  scanSegs t.length t

/-! ### Token entries and the `main` token-collection pass (source lines 282-339)

An `added_tokens` entry is a JSON object; the pass reads and writes the keys
`id`, `content`, `special` and `normalized`. A key that is absent or holds a
value of the wrong type is modelled as `none` (such entries are skipped by
every type-guarded access of the source). Non-object list elements only ever
flow through untouched, so the collection is modelled as `List Tok`. -/

structure Tok where
  /-- Models `tok.get("id")` (opaque, origin-assigned). -/
  id : Option Int
  /-- Models `tok.get("content")` when it is a string. -/
  content : Option PyStr
  /-- Models `tok.get("special")` when it is a boolean. -/
  special : Option Bool
  /-- Models `tok.get("normalized")` when it is a boolean. -/
  normalized : Option Bool
deriving DecidableEq

/-- Step 1 of `main` per entry (source lines 290-315): repair the content
(full cleanup when angle-bracketed), force `special=True` when the new
content is the canonical BOS/EOS and always set `normalized=False`; entries
without string content are left untouched (`continue`). -/
def processTok (t : Tok) : Tok :=
  match t.content with
  | none => t
  | some c =>
    let after := tokenContentPipeline c
    { t with
      content := some after
      special := if after = CANON_BOS ∨ after = CANON_EOS then some true else t.special
      normalized := some false }

/-- Dedup worker (source lines 316-335), tracking the running index and the
set of contents seen so far: an entry whose string content was already seen
is dropped and recorded as `(index, id, content)`; every other entry is kept.
Survivors are returned with their original index. -/
def dedupIdxGo (i : Nat) (seen : List PyStr) :
    List Tok → List (Nat × Tok) × List (Nat × Option Int × PyStr)
  | [] => ([], [])
  | t :: rest =>
    match t.content with
    | some c =>
      if seen.contains c then
        let r := dedupIdxGo (i+1) seen rest
        (r.1, (i, t.id, c) :: r.2)
      else
        let r := dedupIdxGo (i+1) (c :: seen) rest
        ((i, t) :: r.1, r.2)
    | none =>
      let r := dedupIdxGo (i+1) seen rest
      ((i, t) :: r.1, r.2)

/-- Dedup of a token collection by content, keeping first occurrences
(source lines 316-335). -/
def dedupByContent (toks : List Tok) :
    List (Nat × Tok) × List (Nat × Option Int × PyStr) :=
  dedupIdxGo 0 [] toks

/-- The whole token-collection pass: per-entry processing followed by dedup. -/
def mainPass (toks : List Tok) :
    List (Nat × Tok) × List (Nat × Option Int × PyStr) :=
  dedupByContent (toks.map processTok)

/-- Surviving entries of the pass, in order. -/
def passSurvivors (toks : List Tok) : List Tok :=
  (mainPass toks).1.map Prod.snd

/-- Step 4 of `main` (source lines 411-426): for every surviving entry,
compare its `id` with the value captured for that same object before the
pass (object identity becomes the original index here) and report every
difference. -/
def idCheckErrs (toks : List Tok) : List (Option Int × Option Int) :=
  (mainPass toks).1.filterMap (fun p =>
    let pre := (toks.map Tok.id).getD p.1 none
    if p.2.id = pre then none else some (pre, p.2.id))

/-- Validation-error records of the run, tagged as in the report text. -/
inductive Err
  /-- Models `bos_token mismatch` (source lines 435-436). -/
  | bosMismatch : Err
  /-- Models `eos_token mismatch` (source lines 437-438). -/
  | eosMismatch : Err
  /-- Models `failed to read special_tokens_map.json` (source lines 466-467). -/
  | spmapReadFail : Err
  /-- Models `could not find canonical bos_token` (source lines 501-502). -/
  | missingBos : Err
  /-- Models `could not find canonical eos_token` (source lines 503-504). -/
  | missingEos : Err
  /-- Models `content has mojibake remnants` in `added_tokens` (source line 385). -/
  | remnantAdded (idx : Nat) : Err
  /-- Models `contains zero-width/VS` in `added_tokens` (source line 390). -/
  | zwAdded (idx : Nat) : Err
  /-- remnants in a `special_tokens` mapping value (source line 394). -/
  | remnantSpKey (k : PyStr) : Err
  /-- zero-width in a `special_tokens` mapping value (source line 398). -/
  | zwSpKey (k : PyStr) : Err
  /-- remnants in a `special_tokens` list entry (source line 404). -/
  | remnantSpList (idx : Nat) : Err
  /-- zero-width in a `special_tokens` list entry (source line 408). -/
  | zwSpList (idx : Nat) : Err
  /-- Models `BOS/EOS must have special=true` (source line 520). -/
  | flagSpecial (idx : Nat) : Err
  /-- Models `should set normalized=false for fullwidth markers` (source line 523). -/
  | flagNormalized (idx : Nat) : Err
  /-- Models `vocab.json collision for marker ...` (source lines 553-556). -/
  | vocabCollision (content : PyStr) : Err
  /-- Models `regex pattern has mojibake remnants` (source line 567). -/
  | regexRemnant (pat : PyStr) : Err
  /-- Models `regex pattern may lose escapes when serialized` (source line 572). -/
  | regexEscapeLoss (pat : PyStr) : Err
  /-- Models `self-test failed` (source lines 601-602). -/
  | selfTestFail : Err
  /-- Models `failed to process tokenizer_config.json` (source lines 620-621). -/
  | tcfgFail : Err
deriving DecidableEq

/-- Models `has_mojibake_remnants` (source lines 164-166). -/
def has_mojibake_remnants (s : PyStr) : Bool :=
  hasSeg remnantBar s || hasSeg remnantBlockA s || hasSeg remnantBlockB s

/-- Step 6.1 of `main` (source lines 510-523): flag validation over the
(post-pass) token collection; one error per entry whose canonical-BOS/EOS
content lacks `special=true`, one per entry whose content holds a marker
character without `normalized` being exactly `False`. -/
def flagErrsGo (i : Nat) : List Tok → List Err
  | [] => []
  | t :: rest =>
    (match t.content with
     | none => []
     | some c =>
       (if (c = CANON_BOS ∨ c = CANON_EOS) ∧ ¬(t.special.getD false) then
          [Err.flagSpecial i] else []) ++
       (if (c.contains FULLWIDTH_BAR ∨ c.contains SPM_BLOCK) ∧ t.normalized ≠ some false then
          [Err.flagNormalized i] else [])) ++ flagErrsGo (i+1) rest

/-- Flag validation of a token list (source lines 510-523). -/
def flagErrs (toks : List Tok) : List Err := flagErrsGo 0 toks

/-! ### Self-test (source lines 236-251 and 583-602) -/

/-- First self-test sample `"<ï½œbeginâ–\x81ofâ–\x81sentenceï½œ>"`
(source line 239/588; raw U+0081 bytes follow each `"â–"`). -/
def sampleBOS : PyStr :=
  '<' :: remnantBar ++ "begin".data ++ remnantBlockA ++ "of".data ++
    remnantBlockA ++ "sentence".data ++ remnantBar ++ ['>']

/-- Second self-test sample (source line 240/589). -/
def sampleEOS : PyStr :=
  '<' :: remnantBar ++ "end".data ++ remnantBlockA ++ "of".data ++
    remnantBlockA ++ "sentence".data ++ remnantBar ++ ['>']

/-- Third self-test sample `"<ï½œUserï½œ>"` (source line 241/590). -/
def sampleUSER : PyStr := '<' :: remnantBar ++ "User".data ++ remnantBar ++ ['>']

/-- Fourth self-test sample `"<ï½œAssistantï½œ>"` (source line 242/591). -/
def sampleASSISTANT : PyStr :=
  '<' :: remnantBar ++ "Assistant".data ++ remnantBar ++ ['>']

/-- The sample/expected pairs of the self-test loop. -/
def selfTestSamples : List (PyStr × PyStr) :=
  [(sampleBOS, CANON_BOS), (sampleEOS, CANON_EOS),
   (sampleUSER, CANON_USER), (sampleASSISTANT, CANON_ASSISTANT)]

/-- The self-test predicate: each sample must be detected after repair and
canonicalize to the expected marker. -/
def selfTestPasses : Bool :=
  selfTestSamples.all (fun p =>
    let r := looks_like_one_of_four_chat_markers (demojibake_and_normalize p.1)
    r.1 && r.2 == p.2)

/-- The self-test contributes one `self-test failed` validation error when a
sample fails (the loop raises on the first failure and the `except` arm
appends a single error). -/
def selfTestErrs : List Err := if selfTestPasses then [] else [Err.selfTestFail]

/-! ### The `special_tokens` field (source lines 341-375, 391-409) -/

/-- The `special_tokens` field of the document: missing (or of another
type), a mapping from names to string values, or a list of entries. Mapping
values of non-string type are never touched or validated, so only string
values are modelled. -/
inductive StField
  | missing : StField
  | map (entries : List (PyStr × PyStr)) : StField
  | list (entries : List Tok) : StField
deriving DecidableEq

/-- Models `dict.get` over the mapping form (JSON object keys are unique; first
match). -/
def lookupStr (m : List (PyStr × PyStr)) (k : PyStr) : Option PyStr :=
  (m.find? (fun p => p.1 == k)).map Prod.snd

/-- Step 2 value processing for the mapping form (source lines 346-361):
repair plus cleanup when angle-bracketed, then for the two role keys force
the canonical form on a marker match. -/
def stMapVal (k v : PyStr) : PyStr :=
  let after := tokenContentPipeline v
  if k = "bos_token".data ∨ k = "eos_token".data then
    let r := looks_like_one_of_four_chat_markers after
    if r.1 then r.2 else after
  else after

/-- Step 2 entry processing for the list form (source lines 362-375):
content only, no flag updates. -/
def stProcessTok (t : Tok) : Tok :=
  match t.content with
  | none => t
  | some c => { t with content := some (tokenContentPipeline c) }

/-- Step 2 of `main`: process the `special_tokens` field in place. -/
def stProcess : StField → StField
  | .missing => .missing
  | .map m => .map (m.map (fun kv => (kv.1, stMapVal kv.1 kv.2)))
  | .list l => .list (l.map stProcessTok)

/-! ### Validation scans of `main` (source lines 378-409, 526-581) -/

/-- Number of zero-width/variation characters in a string; the scan emits
one error per offending character. -/
def zwCount (c : PyStr) : Nat :=
  (c.filter (fun ch => ZERO_WIDTHS.contains ch)).length

/-- Models `scan_for_remnants` over `added_tokens` (source lines 380-390). -/
def scanAddedGo (i : Nat) : List Tok → List Err
  | [] => []
  | t :: rest =>
    (match t.content with
     | none => []
     | some c =>
       (if has_mojibake_remnants c then [Err.remnantAdded i] else []) ++
       (if is_angle_bracketed c then
          List.replicate (zwCount c) (Err.zwAdded i) else [])) ++
    scanAddedGo (i+1) rest

/-- Models `scan_for_remnants` over a `special_tokens` list (source lines 399-408). -/
def scanStListGo (i : Nat) : List Tok → List Err
  | [] => []
  | t :: rest =>
    (match t.content with
     | none => []
     | some c =>
       (if has_mojibake_remnants c then [Err.remnantSpList i] else []) ++
       (if is_angle_bracketed c then
          List.replicate (zwCount c) (Err.zwSpList i) else [])) ++
    scanStListGo (i+1) rest

/-- Models `scan_for_remnants` over the `special_tokens` field (source lines
391-408). -/
def scanStErrs : StField → List Err
  | .missing => []
  | .map m => m.flatMap (fun kv =>
      (if has_mojibake_remnants kv.2 then [Err.remnantSpKey kv.1] else []) ++
      (if is_angle_bracketed kv.2 then
         List.replicate (zwCount kv.2) (Err.zwSpKey kv.1) else []))
  | .list l => scanStListGo 0 l

/-- Models `scan_for_remnants` (source lines 378-409): `added_tokens` first, then
the `special_tokens` field, both in their post-repair state. -/
def scanForRemnants (atoks : Option (List Tok)) (st : StField) : List Err :=
  (match atoks with | some l => scanAddedGo 0 l | none => []) ++ scanStErrs st

/-- Python dict assignment `d[k] = v` over an insertion-ordered association
list: update in place or append. -/
def upsert (k : PyStr) (v : Option Int) :
    List (PyStr × Option Int) → List (PyStr × Option Int)
  | [] => [(k, v)]
  | p :: rest => if p.1 = k then (k, v) :: rest else p :: upsert k v rest

/-- Models `marker_ids` of step 6.2 (source lines 545-551): content of a canonical
marker maps to that entry's id, later entries overwriting earlier ones. -/
def buildMarkerIds (toks : List Tok) : List (PyStr × Option Int) :=
  toks.foldl (fun acc t =>
    match t.content with
    | some c =>
      if c = CANON_BOS ∨ c = CANON_EOS ∨ c = CANON_USER ∨ c = CANON_ASSISTANT then
        upsert c t.id acc
      else acc
    | none => acc) []

/-- Lookup in the vocabulary mapping. -/
def lookupVocab (vm : List (PyStr × Int)) (k : PyStr) : Option Int :=
  (vm.find? (fun p => p.1 == k)).map Prod.snd

/-- Step 6.2 (source lines 542-556): report a collision for every marker
whose vocabulary id differs from its added-token id; an empty vocabulary
mapping (no file and no embedded vocabulary) skips the check. -/
def vocabErrs (vm : List (PyStr × Int)) (atoks : Option (List Tok)) : List Err :=
  if vm.isEmpty then []
  else (buildMarkerIds (atoks.getD [])).filterMap (fun p =>
    match lookupVocab vm p.1 with
    | some vid => if p.2 ≠ some vid then some (Err.vocabCollision p.1) else none
    | none => none)

/-- Lowercase hexadecimal digit, as `json.dumps` emits. -/
def hexDigit (n : Nat) : Char :=
  if n < 10 then Char.ofNat (48 + n) else Char.ofNat (87 + n)

/-- Models `json.dumps` escaping of one character with `ensure_ascii=False`:
backslash and quote escaped, control characters as short escapes or
`\u00xx`, everything else literal. -/
def jsonEscapeChar (c : Char) : PyStr :=
  if c = '\\' then ['\\', '\\']
  else if c = '"' then ['\\', '"']
  else if c = '\n' then ['\\', 'n']
  else if c = '\t' then ['\\', 't']
  else if c = '\r' then ['\\', 'r']
  else if c.toNat = 8 then ['\\', 'b']
  else if c.toNat = 12 then ['\\', 'f']
  else if c.toNat < 0x20 then
    ['\\', 'u', '0', '0', hexDigit (c.toNat / 16), hexDigit (c.toNat % 16)]
  else [c]

/-- Models `json.dumps(pat)` for a string payload. -/
def jsonDumpsStr (s : PyStr) : PyStr := '"' :: s.flatMap jsonEscapeChar ++ ['"']

/-- The literal `"\\p{"` of source line 569: backslash, `p`, brace. -/
def bsPBrace : PyStr := "\\p\x7b".data

/-- The literal `"\\\\p{"` of source line 571: two backslashes, `p`, brace. -/
def bsbsPBrace : PyStr := "\\\\p\x7b".data

/-- Step 6.3 per pattern string (source lines 559-581): flag remnants, and
flag an escape-loss risk when a `\p{` payload does not serialize with a
doubled backslash. The tree walk that collects `pattern` fields from the
`pre_tokenizer` subtree is abstracted into the input's pattern list. -/
def regexErrs (pats : List PyStr) : List Err :=
  pats.flatMap (fun p =>
    (if has_mojibake_remnants p then [Err.regexRemnant p] else []) ++
    (if hasSeg bsPBrace p then
       (if ¬ hasSeg bsbsPBrace (jsonDumpsStr p) then [Err.regexEscapeLoss p] else [])
     else []))

/-! ### The orchestrator `main` (source lines 221-663) -/

/-- Companion `special_tokens_map.json`: parse success plus the two role
values the code reads (string values). -/
structure SpMapFile where
  parseOk : Bool
  bos : Option PyStr
  eos : Option PyStr
deriving DecidableEq

/-- Companion `tokenizer_config.json`: parse success plus the
`chat_template` string field when present. -/
structure TcfgFile where
  parseOk : Bool
  template : Option PyStr
deriving DecidableEq

/-- File-write events of a run, in program order. -/
inductive WEvent
  | spmapBackup | spmapWrite | tcfgBackup | tcfgWrite | primaryBackup | primaryWrite
deriving DecidableEq

/-- Abstract input of one run of `main`: flags, the parsed primary document
(token list, `special_tokens` field, pattern strings of the `pre_tokenizer`
walk, merged vocabulary mapping) and the two optional companion files. -/
structure RunInput where
  dry : Bool
  inputFound : Bool
  parseOk : Bool
  addedTokens : Option (List Tok)
  st : StField
  spmap : Option SpMapFile
  tcfg : Option TcfgFile
  vocab : List (PyStr × Int)
  patterns : List PyStr
deriving DecidableEq

/-- Result of a run: process exit code, write events in order, and the
accumulated validation-error list (the id-check errors of step 4 are a
separate fatal category and are not part of this list). -/
structure RunResult where
  code : Nat
  writes : List WEvent
  errors : List Err
deriving DecidableEq

/-- Step 5 per-role repair for the companion map (source lines 447-452):
unconditional cleanup, then force the canonical form on a marker match. -/
def spKeyFix (v : PyStr) : PyStr :=
  let val := cleanup_marker_like_string v
  let r := looks_like_one_of_four_chat_markers val
  if r.1 then r.2 else val

/-- Step 5 when the companion map file exists (source lines 440-467):
repair and validate the two role values, then back up and write the file
whenever the run is not a dry run — regardless of the error set; a
read/parse failure yields one validation error and no write. -/
def spmapExistsStep (dry : Bool) (f : SpMapFile) : List Err × List WEvent :=
  if f.parseOk then
    ((match f.bos with
      | some v => if spKeyFix v ≠ CANON_BOS then [Err.bosMismatch] else []
      | none => []) ++
     (match f.eos with
      | some v => if spKeyFix v ≠ CANON_EOS then [Err.eosMismatch] else []
      | none => []),
     if dry then [] else [WEvent.spmapBackup, WEvent.spmapWrite])
  else ([Err.spmapReadFail], [])

/-- Step 5 when the companion map file is absent (source lines 468-504):
validate explicit role values of a mapping-form `special_tokens` (repair for
comparison only), then require each canonical marker to occur in the
`special_tokens` field or the token collection. -/
def spmapAbsentErrs (st : StField) (atoks : Option (List Tok)) : List Err :=
  let dictBosErr := match st with
    | .map m =>
      match lookupStr m ("bos_token".data) with
      | some v => if demojibake_and_normalize v ≠ CANON_BOS then [Err.bosMismatch] else []
      | none => []
    | _ => []
  let dictEosErr := match st with
    | .map m =>
      match lookupStr m ("eos_token".data) with
      | some v => if demojibake_and_normalize v ≠ CANON_EOS then [Err.eosMismatch] else []
      | none => []
    | _ => []
  let stBos : Bool := match st with
    | .map m => lookupStr m ("bos_token".data) == some CANON_BOS
    | .list l => l.any (fun t => t.content == some CANON_BOS)
    | .missing => false
  let stEos : Bool := match st with
    | .map m => lookupStr m ("eos_token".data) == some CANON_EOS
    | .list l => l.any (fun t => t.content == some CANON_EOS)
    | .missing => false
  let foundBos := stBos || (atoks.getD []).any (fun t => t.content == some CANON_BOS)
  let foundEos := stEos || (atoks.getD []).any (fun t => t.content == some CANON_EOS)
  dictBosErr ++ dictEosErr ++
    (if foundBos then [] else [Err.missingBos]) ++
    (if foundEos then [] else [Err.missingEos])

/-- Models `tokenizer_config.json` processing (source lines 604-621): when the file
exists and its template changed under `fix_markers_in_text`, back up and
write it (outside dry runs) — this, too, happens before the validation
gate; a read/parse failure is one validation error. -/
def tcfgStep (dry : Bool) : Option TcfgFile → List Err × List WEvent
  | none => ([], [])
  | some f =>
    if f.parseOk then
      match f.template with
      | some s =>
        if fix_markers_in_text s ≠ s then
          ([], if dry then [] else [WEvent.tcfgBackup, WEvent.tcfgWrite])
        else ([], [])
      | none => ([], [])
    else ([Err.tcfgFail], [])

/-- The tail of `main` (source lines 623-663): the validation gate. A
non-empty error list reports and exits 1; otherwise a dry run exits 0, and
a normal run backs up and writes the primary document and exits 0. -/
def gateStep (dry : Bool) (errs : List Err) (writes : List WEvent) : RunResult :=
  if ¬ errs.isEmpty then { code := 1, writes := writes, errors := errs }
  else if dry then { code := 0, writes := writes, errors := [] }
  else { code := 0, writes := writes ++ [WEvent.primaryBackup, WEvent.primaryWrite],
         errors := [] }

/-- The orchestrator `main` as a pure function. File-system effects become
events; reads and writes themselves are assumed to succeed (backup-write
failures and argument parsing are outside the model). Program order:
missing-input and parse-failure exits, token pass, id check (fatal, distinct
category), companion-map step (with its early write), remnant scan, flag
check, vocabulary collisions, pattern checks, dry-run self-test, template
step (with its early write), then the validation gate that suppresses only
the primary write. -/
def runMain (inp : RunInput) : RunResult :=
  if ¬ inp.inputFound then
    if inp.dry then
      { code := if selfTestErrs.isEmpty then 0 else 1, writes := [], errors := selfTestErrs }
    else { code := 2, writes := [], errors := [] }
  else if ¬ inp.parseOk then { code := 2, writes := [], errors := [] }
  else
    let atoksFinal : Option (List Tok) := inp.addedTokens.map passSurvivors
    let stAfter := stProcess inp.st
    let idErrs := match inp.addedTokens with
      | some l => idCheckErrs l
      | none => []
    if ¬ idErrs.isEmpty then { code := 1, writes := [], errors := [] }
    else
      let spRes := match inp.spmap with
        | some f => spmapExistsStep inp.dry f
        | none => (spmapAbsentErrs stAfter atoksFinal, [])
      let tcRes := tcfgStep inp.dry inp.tcfg
      let errs := spRes.1 ++ scanForRemnants atoksFinal stAfter ++
        (match atoksFinal with | some l => flagErrs l | none => []) ++
        vocabErrs inp.vocab atoksFinal ++ regexErrs inp.patterns ++
        (if inp.dry then selfTestErrs else []) ++ tcRes.1
      gateStep inp.dry errs (spRes.2 ++ tcRes.2)

/-! ### Claim-side notions and concrete instances used by the theorems -/

/-- The specification's lexicographic candidate order: fewer residual
corrupted substrings first, then more target special characters (the second
score component is the negated character count, so smaller is better). -/
def lexLe (a b : Nat × Int) : Prop := a.1 < b.1 ∨ (a.1 = b.1 ∧ a.2 ≤ b.2)

/-- Claim-side shape predicate of the Marker Canonicalizer contract: starts
with `<`, ends with `>`, length at least 2. -/
def angleShaped (s : PyStr) : Prop :=
  s.head? = some '<' ∧ s.getLast? = some '>' ∧ 2 ≤ s.length

instance (s : PyStr) : Decidable (angleShaped s) := by
  unfold angleShaped; infer_instance

/-- Flag invariant every entry produced by `processTok` satisfies: canonical
BOS/EOS content comes with `special=true`, and string content comes with
`normalized=false`. -/
def tokFlagInv (t : Tok) : Prop :=
  ∀ c, t.content = some c →
    ((c = CANON_BOS ∨ c = CANON_EOS) → t.special = some true) ∧
    t.normalized = some false

/-- A run input with a present but non-canonical `bos_token` in the
companion special-token map: its validation fails, yet the companion file
is backed up and rewritten. -/
def spmapBadBosInput : RunInput :=
  { dry := false, inputFound := true, parseOk := true, addedTokens := none,
    st := .missing,
    spmap := some { parseOk := true, bos := some ("<nope>".data), eos := some CANON_EOS },
    tcfg := none, vocab := [], patterns := [] }

/-- A token entry whose content is the canonical BOS marker but whose
`special` flag is false (the scenario of spec Example 5). -/
def bosNoSpecialTok : Tok :=
  { id := some 0, content := some CANON_BOS, special := some false, normalized := none }

/-- First entry of the duplicate-content example: content `"X"`, id 5. -/
def dupTokA : Tok :=
  { id := some 5, content := some ['X'], special := none, normalized := none }

/-- Second entry of the duplicate-content example: content `"X"`, id 9. -/
def dupTokB : Tok :=
  { id := some 9, content := some ['X'], special := none, normalized := none }

/-! ## Helper lemmas -/

lemma lexLe_refl (a : Nat × Int) : lexLe a a := by
  unfold lexLe; omega

lemma lexLe_trans {a b c : Nat × Int} (h1 : lexLe a b) (h2 : lexLe b c) : lexLe a c := by
  unfold lexLe at *; omega

lemma scoreLt_true_lexLe {a b : Nat × Int} (h : scoreLt a b = true) : lexLe a b := by
  simp only [scoreLt, Bool.or_eq_true, Bool.and_eq_true, decide_eq_true_eq] at h
  unfold lexLe; omega

lemma scoreLt_false_lexLe {a b : Nat × Int} (h : scoreLt a b = false) : lexLe b a := by
  have h' : ¬ (scoreLt a b = true) := by simp [h]
  simp only [scoreLt, Bool.or_eq_true, Bool.and_eq_true, decide_eq_true_eq] at h'
  push_neg at h'
  unfold lexLe
  omega

/-- CPython `min` with a key: the result is in the list and its key is
lexicographically least. -/
lemma pyMinBy_spec (f : PyStr → Nat × Int) (x : PyStr) (xs : List PyStr) :
    pyMinBy f x xs ∈ x :: xs ∧ ∀ y ∈ x :: xs, lexLe (f (pyMinBy f x xs)) (f y) := by
  induction xs generalizing x with
  | nil =>
    refine ⟨by simp [pyMinBy], ?_⟩
    intro y hy
    simp only [List.mem_singleton] at hy
    subst hy
    exact lexLe_refl _
  | cons c cs ih =>
    have hstep : pyMinBy f x (c :: cs) =
        pyMinBy f (if scoreLt (f c) (f x) then c else x) cs := by
      simp [pyMinBy, List.foldl_cons]
    by_cases hlt : scoreLt (f c) (f x) = true
    · rw [hstep, if_pos hlt]
      obtain ⟨hm, hmin⟩ := ih c
      refine ⟨List.mem_cons_of_mem x hm, ?_⟩
      intro y hy
      rcases List.mem_cons.mp hy with h | h
      · rw [h]
        exact lexLe_trans (hmin c (by simp)) (scoreLt_true_lexLe hlt)
      · exact hmin y h
    · have hlt' : scoreLt (f c) (f x) = false := by
        cases hv : scoreLt (f c) (f x) <;> simp_all
      rw [hstep, if_neg (by simp [hlt'])]
      obtain ⟨hm, hmin⟩ := ih x
      refine ⟨?_, ?_⟩
      · rcases List.mem_cons.mp hm with h | h
        · rw [h]; exact List.mem_cons_self _ _
        · exact List.mem_cons_of_mem x (List.mem_cons_of_mem c h)
      · intro y hy
        rcases List.mem_cons.mp hy with h | h
        · rw [h]; exact hmin x (by simp)
        · rcases List.mem_cons.mp h with h2 | h2
          · rw [h2]
            exact lexLe_trans (hmin x (by simp)) (scoreLt_false_lexLe hlt')
          · exact hmin y (by simp [h2])

lemma processTok_id (t : Tok) : (processTok t).id = t.id := by
  unfold processTok
  cases t.content <;> rfl

/-- Dedup survivors form a sublist of the input (order preserved, entries
unchanged). -/
lemma dedupIdxGo_sublist (l : List Tok) (i : Nat) (seen : List PyStr) :
    ((dedupIdxGo i seen l).1.map Prod.snd).Sublist l := by
  induction l generalizing i seen with
  | nil => simp [dedupIdxGo]
  | cons t rest ih =>
    cases ht : t.content with
    | none =>
      simp only [dedupIdxGo, ht, List.map_cons]
      exact (ih (i+1) seen).cons₂ t
    | some c =>
      by_cases hc : seen.contains c
      · simp only [dedupIdxGo, ht, hc, if_true]
        exact (ih (i+1) seen).cons t
      · simp only [dedupIdxGo, ht, hc, if_false, Bool.false_eq_true, List.map_cons]
        exact (ih (i+1) (c :: seen)).cons₂ t

/-- Every dedup survivor sits at its recorded original index. -/
lemma dedupIdxGo_fst_index (l : List Tok) (i : Nat) (seen : List PyStr) :
    ∀ p ∈ (dedupIdxGo i seen l).1, i ≤ p.1 ∧ l[p.1 - i]? = some p.2 := by
  induction l generalizing i seen with
  | nil => simp [dedupIdxGo]
  | cons t rest ih =>
    intro p hp
    cases ht : t.content with
    | none =>
      simp only [dedupIdxGo, ht] at hp
      rcases List.mem_cons.mp hp with h | h
      · rw [h]; simp
      · obtain ⟨h1, h2⟩ := ih (i+1) seen p h
        refine ⟨by omega, ?_⟩
        have : p.1 - i = (p.1 - (i+1)) + 1 := by omega
        rw [this]
        simpa using h2
    | some c =>
      by_cases hc : seen.contains c
      · simp only [dedupIdxGo, ht, hc, if_true] at hp
        obtain ⟨h1, h2⟩ := ih (i+1) seen p hp
        refine ⟨by omega, ?_⟩
        have : p.1 - i = (p.1 - (i+1)) + 1 := by omega
        rw [this]
        simpa using h2
      · simp only [dedupIdxGo, ht, hc, if_false, Bool.false_eq_true] at hp
        rcases List.mem_cons.mp hp with h | h
        · rw [h]; simp
        · obtain ⟨h1, h2⟩ := ih (i+1) (c :: seen) p h
          refine ⟨by omega, ?_⟩
          have : p.1 - i = (p.1 - (i+1)) + 1 := by omega
          rw [this]
          simpa using h2

/-- Every dedup removal record points at an input entry with that identifier
and content. -/
lemma dedupIdxGo_snd_records (l : List Tok) (i : Nat) (seen : List PyStr) :
    ∀ r ∈ (dedupIdxGo i seen l).2,
      i ≤ r.1 ∧ ∃ t, l[r.1 - i]? = some t ∧ t.id = r.2.1 ∧ t.content = some r.2.2 := by
  induction l generalizing i seen with
  | nil => simp [dedupIdxGo]
  | cons t rest ih =>
    intro r hr
    cases ht : t.content with
    | none =>
      simp only [dedupIdxGo, ht] at hr
      obtain ⟨h1, t0, h2, h3, h4⟩ := ih (i+1) seen r hr
      refine ⟨by omega, t0, ?_, h3, h4⟩
      have : r.1 - i = (r.1 - (i+1)) + 1 := by omega
      rw [this]
      simpa using h2
    | some c =>
      by_cases hc : seen.contains c
      · simp only [dedupIdxGo, ht, hc, if_true] at hr
        rcases List.mem_cons.mp hr with h | h
        · rw [h]
          exact ⟨Nat.le_refl i, t, by simp, rfl, ht⟩
        · obtain ⟨h1, t0, h2, h3, h4⟩ := ih (i+1) seen r h
          refine ⟨by omega, t0, ?_, h3, h4⟩
          have : r.1 - i = (r.1 - (i+1)) + 1 := by omega
          rw [this]
          simpa using h2
      · simp only [dedupIdxGo, ht, hc, if_false, Bool.false_eq_true] at hr
        obtain ⟨h1, t0, h2, h3, h4⟩ := ih (i+1) (c :: seen) r hr
        refine ⟨by omega, t0, ?_, h3, h4⟩
        have : r.1 - i = (r.1 - (i+1)) + 1 := by omega
        rw [this]
        simpa using h2

/-- Dedup partitions the input: survivors plus removals account for every
entry. -/
lemma dedupIdxGo_length (l : List Tok) (i : Nat) (seen : List PyStr) :
    (dedupIdxGo i seen l).1.length + (dedupIdxGo i seen l).2.length = l.length := by
  induction l generalizing i seen with
  | nil => simp [dedupIdxGo]
  | cons t rest ih =>
    cases ht : t.content with
    | none =>
      simp only [dedupIdxGo, ht, List.length_cons]
      have := ih (i+1) seen
      omega
    | some c =>
      by_cases hc : seen.contains c
      · simp only [dedupIdxGo, ht, hc, if_true, List.length_cons]
        have := ih (i+1) seen
        omega
      · simp only [dedupIdxGo, ht, hc, if_false, Bool.false_eq_true, List.length_cons]
        have := ih (i+1) (c :: seen)
        omega

/-- Dedup keeps exactly the first entry of each distinct string content:
filtering the survivors for one content value gives the head of the input's
filtration (or nothing, when that content was already seen). -/
lemma dedupIdxGo_filter_take (l : List Tok) (i : Nat) (seen : List PyStr) (c : PyStr) :
    ((dedupIdxGo i seen l).1.map Prod.snd).filter (fun t => t.content == some c) =
      if seen.contains c then [] else
        (l.filter (fun t => t.content == some c)).take 1 := by
  induction l generalizing i seen with
  | nil => simp [dedupIdxGo]
  | cons t rest ih =>
    cases ht : t.content with
    | none =>
      have hne : (t.content == some c) = false := by simp [ht]
      simp only [dedupIdxGo, ht, List.map_cons, List.filter_cons, hne]
      rw [ih (i+1) seen]
      simp [List.filter_cons, hne]
    | some c' =>
      by_cases hcc : c' = c
      · subst hcc
        have heq : (t.content == some c') = true := by simp [ht]
        by_cases hc : seen.contains c'
        · simp only [dedupIdxGo, ht, hc, if_true]
          rw [ih (i+1) seen, if_pos hc]
        · simp only [dedupIdxGo, ht, hc, if_false, Bool.false_eq_true, List.map_cons]
          rw [List.filter_cons_of_pos (by simpa using heq)]
          rw [ih (i+1) (c' :: seen)]
          have hc' : (c' :: seen).contains c' = true := by simp
          rw [List.filter_cons_of_pos (by simpa using heq)]
          simp [hc, hc']
      · have hne : (t.content == some c) = false := by simp [ht, hcc]
        by_cases hc : seen.contains c'
        · simp only [dedupIdxGo, ht, hc, if_true]
          rw [ih (i+1) seen]
          simp [List.filter_cons, hne]
        · simp only [dedupIdxGo, ht, hc, if_false, Bool.false_eq_true, List.map_cons]
          rw [List.filter_cons_of_neg (by simpa using hne)]
          rw [ih (i+1) (c' :: seen)]
          have : (c' :: seen).contains c = seen.contains c := by
            simp [List.contains_cons]
            intro h
            exact absurd h.symm hcc
          rw [this]
          simp [List.filter_cons, hne]

/-- Every entry produced by the token pass satisfies the flag invariant. -/
lemma processTok_flagInv (t : Tok) : tokFlagInv (processTok t) := by
  intro c hc
  unfold processTok at hc ⊢
  cases ht : t.content with
  | none => simp [ht] at hc
  | some c0 =>
    simp only [ht, Option.some.injEq] at hc
    subst hc
    refine ⟨fun hbe => ?_, rfl⟩
    simp only []
    rw [if_pos hbe]

/-- The flag scan reports nothing over a list of invariant-satisfying
entries. -/
lemma flagErrsGo_nil (l : List Tok) :
    ∀ i, (∀ t ∈ l, tokFlagInv t) → flagErrsGo i l = [] := by
  induction l with
  | nil => intro i _; rfl
  | cons t rest ih =>
    intro i h
    have hrest := ih (i+1) (fun u hu => h u (List.mem_cons_of_mem t hu))
    unfold flagErrsGo
    rw [hrest]
    cases hc : t.content with
    | none => simp
    | some c =>
      obtain ⟨hspec, hnorm⟩ := h t (List.mem_cons_self t rest) c hc
      by_cases hbe : c = CANON_BOS ∨ c = CANON_EOS
      · have hs := hspec hbe
        simp [hs, hnorm]
      · simp [hbe, hnorm]

/-- Every survivor of the token pass satisfies the flag invariant. -/
lemma passSurvivors_flagInv (toks : List Tok) :
    ∀ t ∈ passSurvivors toks, tokFlagInv t := by
  intro t ht
  have hsub := dedupIdxGo_sublist (toks.map processTok) 0 []
  have hmem : t ∈ toks.map processTok := hsub.subset ht
  obtain ⟨u, hu, hut⟩ := List.mem_map.mp hmem
  rw [← hut]
  exact processTok_flagInv u

/-- Models `splitAtGt` inverts list concatenation. -/
lemma splitAtGt_eq : ∀ (l a b : PyStr), splitAtGt l = some (a, b) → l = a ++ '>' :: b := by
  intro l
  induction l with
  | nil => intro a b h; simp [splitAtGt] at h
  | cons c cs ih =>
    intro a b h
    by_cases hc : c = '>'
    · subst hc
      simp only [splitAtGt, if_true, reduceIte] at h
      simp only [Option.some.injEq, Prod.mk.injEq] at h
      obtain ⟨rfl, rfl⟩ := h
      rfl
    · simp only [splitAtGt, if_neg hc] at h
      cases hsp : splitAtGt cs with
      | none => rw [hsp] at h; simp at h
      | some p =>
        obtain ⟨p1, p2⟩ := p
        rw [hsp] at h
        simp only [Option.some.injEq, Prod.mk.injEq] at h
        obtain ⟨rfl, rfl⟩ := h
        rw [ih p1 p2 hsp]
        rfl

/-- A segment without `'>'` splits exactly at the closing bracket. -/
lemma splitAtGt_append (seg b : PyStr) (h : '>' ∉ seg) :
    splitAtGt (seg ++ '>' :: b) = some (seg, b) := by
  induction seg with
  | nil => simp [splitAtGt]
  | cons c cs ih =>
    have hc : c ≠ '>' := fun hh => h (hh ▸ List.mem_cons_self c cs)
    have h' : '>' ∉ cs := fun hh => h (List.mem_cons_of_mem c hh)
    simp [splitAtGt, hc, ih h']

/-- The template scanner ignores the exact fuel value once it covers the
input length. -/
lemma scanSegs_fuel : ∀ (f g : Nat) (l : PyStr), l.length ≤ f → l.length ≤ g →
    scanSegs f l = scanSegs g l := by
  intro f
  induction f with
  | zero =>
    intro g l hf hg
    have : l = [] := List.length_eq_zero.mp (Nat.le_zero.mp hf)
    subst this
    cases g <;> rfl
  | succ f0 ih =>
    intro g l hf hg
    cases l with
    | nil => cases g <;> rfl
    | cons c cs =>
      cases g with
      | zero => simp at hg
      | succ g0 =>
        have hcs : cs.length ≤ f0 := by simp at hf; omega
        have hcs' : cs.length ≤ g0 := by simp at hg; omega
        simp only [scanSegs]
        by_cases hc : c = '<'
        · rw [if_pos hc, if_pos hc]
          cases hsp : splitAtGt cs with
          | none =>
            show c :: scanSegs f0 cs = c :: scanSegs g0 cs
            rw [ih g0 cs hcs hcs']
          | some p =>
            obtain ⟨p1, p2⟩ := p
            have hlen := congrArg List.length (splitAtGt_eq cs p1 p2 hsp)
            simp [List.length_append] at hlen
            show cleanup_marker_like_string ('<' :: p1 ++ ['>']) ++ scanSegs f0 p2 =
              cleanup_marker_like_string ('<' :: p1 ++ ['>']) ++ scanSegs g0 p2
            rw [ih g0 p2 (by omega) (by omega)]
        · rw [if_neg hc, if_neg hc, ih g0 cs hcs hcs']

/-- Scanner decomposition: a leading stretch without `'<'` passes through
verbatim, the following bracketed segment goes through the cleanup pipeline,
and scanning continues after it. -/
lemma scanSegs_decompose : ∀ (a seg b : PyStr) (f : Nat),
    (a ++ '<' :: (seg ++ '>' :: b)).length ≤ f → '<' ∉ a → '>' ∉ seg →
    scanSegs f (a ++ '<' :: (seg ++ '>' :: b)) =
      a ++ cleanup_marker_like_string ('<' :: (seg ++ ['>'])) ++ scanSegs b.length b := by
  intro a
  induction a with
  | nil =>
    intro seg b f hf ha hseg
    simp only [List.nil_append] at *
    cases f with
    | zero => simp at hf
    | succ f0 =>
      have hb : b.length ≤ f0 := by
        simp [List.length_append] at hf
        omega
      simp only [scanSegs, if_pos rfl]
      rw [splitAtGt_append seg b hseg]
      show cleanup_marker_like_string ('<' :: seg ++ ['>']) ++ scanSegs f0 b =
        cleanup_marker_like_string ('<' :: (seg ++ ['>'])) ++ scanSegs b.length b
      rw [scanSegs_fuel f0 b.length b hb (Nat.le_refl _)]
      rfl
  | cons x a' ih =>
    intro seg b f hf ha hseg
    have hx : x ≠ '<' := fun hh => ha (hh ▸ List.mem_cons_self x a')
    have ha' : '<' ∉ a' := fun hh => ha (List.mem_cons_of_mem x hh)
    cases f with
    | zero => simp at hf
    | succ f0 =>
      have hf' : (a' ++ '<' :: (seg ++ '>' :: b)).length ≤ f0 := by
        simp [List.length_append] at hf ⊢
        omega
      simp only [List.cons_append, scanSegs, if_neg hx]
      show x :: scanSegs f0 (a' ++ '<' :: (seg ++ '>' :: b)) =
        x :: a' ++ cleanup_marker_like_string ('<' :: (seg ++ ['>'])) ++
          scanSegs b.length b
      rw [ih seg b f0 hf' ha' hseg]
      simp

/-- Every surviving entry of the token pass carries the identifier the
input held at its original index. -/
lemma mainPass_pre_id (toks : List Tok) :
    ∀ p ∈ (mainPass toks).1, (toks.map Tok.id)[p.1]? = some p.2.id := by
  intro p hp
  obtain ⟨h1, h2⟩ := dedupIdxGo_fst_index (toks.map processTok) 0 [] p hp
  have h2' : (toks.map processTok)[p.1]? = some p.2 := by simpa using h2
  rw [List.getElem?_map] at h2'
  cases h0 : toks[p.1]? with
  | none => rw [h0] at h2'; simp at h2'
  | some t0 =>
    rw [h0] at h2'
    simp only [Option.map_some', Option.some.injEq] at h2'
    rw [List.getElem?_map, h0]
    simp only [Option.map_some', Option.some.injEq]
    rw [← h2', processTok_id]

/-- The id-change check of step 4 can never report anything: the pass
leaves every identifier in place. -/
lemma idCheckErrs_nil (toks : List Tok) : idCheckErrs toks = [] := by
  unfold idCheckErrs
  apply List.filterMap_eq_nil_iff.mpr
  intro p hp
  have h := mainPass_pre_id toks p hp
  rw [List.getElem?_map] at h
  simp [List.getD_eq_getElem?_getD, List.getElem?_map, h]

/-! ## Claim theorems -/

/-- C1 (amended): the per-string repair pipeline of the token pass is
idempotent at every string it leaves fixed, and each of the four canonical
marker strings is such a fixed point (hence a document whose contents are
already canonical records no changes on a second run); unrestricted
idempotence fails — see the counterexample. -/
theorem c1_pipeline_idempotent_on_fixed_points :
    (∀ s : PyStr, tokenContentPipeline s = s →
      tokenContentPipeline (tokenContentPipeline s) = tokenContentPipeline s) ∧
    tokenContentPipeline CANON_BOS = CANON_BOS ∧
    tokenContentPipeline CANON_EOS = CANON_EOS ∧
    tokenContentPipeline CANON_USER = CANON_USER ∧
    tokenContentPipeline CANON_ASSISTANT = CANON_ASSISTANT := by
  refine ⟨fun s h => by rw [h]; exact h, ?_, ?_, ?_, ?_⟩ <;> decide

/-- C1 counterexample: the pipeline is not idempotent — on `"Ã©"` the first
application yields `"é"`, and the second deletes that character. -/
theorem c1_counterexample :
    tokenContentPipeline (tokenContentPipeline ("Ã©".data)) ≠
      tokenContentPipeline ("Ã©".data) := by
  decide

/-- C1 witness: idempotence at the canonical UserTurn marker. -/
theorem c1_witness :
    tokenContentPipeline (tokenContentPipeline CANON_USER) =
      tokenContentPipeline CANON_USER :=
  c1_pipeline_idempotent_on_fixed_points.1 CANON_USER
    c1_pipeline_idempotent_on_fixed_points.2.2.2.1

/-- C3: the Text Repair Engine is a total function (by construction) that
returns the Unicode-normalized image of a candidate that is minimal, under
the lexicographic order "fewer residual corrupted substrings, then more
target special characters", among the latin-1 reinterpretation, the cp1252
reinterpretation and the direct-replacement candidate. The re-encoding
attempts cannot fail (`errors="ignore"`), so the original-string fallback
arm of the source is dead code and every candidate list has exactly the
three members. -/
theorem c3_repair_selection_rule (s : PyStr) :
    ∃ c, c ∈ demojCandidates s ∧
      demojibake_and_normalize s = nfcNormalize c ∧
      ∀ d ∈ demojCandidates s, lexLe (score c) (score d) := by
  obtain ⟨hmem, hmin⟩ := pyMinBy_spec score (utf8DecodeIgnore (encodeLatin1Ignore s))
    [utf8DecodeIgnore (encodeCp1252Ignore s), directRepl s]
  exact ⟨_, hmem, rfl, hmin⟩

/-- C3 witness: the selection rule applied to the first self-test sample. -/
theorem c3_witness :
    ∃ c, c ∈ demojCandidates sampleBOS ∧
      demojibake_and_normalize sampleBOS = nfcNormalize c ∧
      ∀ d ∈ demojCandidates sampleBOS, lexLe (score c) (score d) :=
  c3_repair_selection_rule sampleBOS

/-- C5: identifier preservation. The id-change check of step 4 reports
nothing on any input, every surviving entry of the token pass keeps the
identifier it had at its original position, and the surviving identifier
sequence is a subsequence of the original one. (The fatal-abort branch for
a violation exists in the code but is provably unreachable.) -/
theorem c5_identifier_preservation (toks : List Tok) :
    idCheckErrs toks = [] ∧
    ((passSurvivors toks).map Tok.id).Sublist (toks.map Tok.id) ∧
    (∀ p ∈ (mainPass toks).1, (toks.map Tok.id)[p.1]? = some p.2.id) := by
  refine ⟨idCheckErrs_nil toks, ?_, mainPass_pre_id toks⟩
  have hsub := (dedupIdxGo_sublist (toks.map processTok) 0 []).map Tok.id
  have hR : (toks.map processTok).map Tok.id = toks.map Tok.id := by
    rw [List.map_map]
    exact List.map_congr_left (fun t _ => processTok_id t)
  rw [hR] at hsub
  exact hsub

/-- C5 witness: identifier preservation on the two-entry duplicate example. -/
theorem c5_witness :
    ([dupTokA, dupTokB].map Tok.id)[0]? = some (processTok dupTokA).id ∧
    idCheckErrs [dupTokA, dupTokB] = [] :=
  ⟨(c5_identifier_preservation [dupTokA, dupTokB]).2.2 (0, processTok dupTokA) (by decide),
   (c5_identifier_preservation [dupTokA, dupTokB]).1⟩

/-- C6: deduplication by content keeps exactly the first entry per distinct
string content, in original relative order (survivors form a sublist),
accounts for every entry (survivor and removal counts sum to the input
length), records every removal as `(index, id, content)` pointing back at
the input, and on the concrete two-entry example keeps id 5 and records the
removal of id 9. -/
theorem c6_dedup_first_occurrence :
    (∀ toks : List Tok,
      (((dedupByContent toks).1.map Prod.snd).Sublist toks) ∧
      (∀ c : PyStr,
        ((dedupByContent toks).1.map Prod.snd).filter (fun t => t.content == some c) =
          (toks.filter (fun t => t.content == some c)).take 1) ∧
      ((dedupByContent toks).1.length + (dedupByContent toks).2.length = toks.length) ∧
      (∀ r ∈ (dedupByContent toks).2, ∃ t, toks[r.1]? = some t ∧
          t.id = r.2.1 ∧ t.content = some r.2.2)) ∧
    dedupByContent [dupTokA, dupTokB] = ([(0, dupTokA)], [(1, some 9, ['X'])]) := by
  constructor
  · intro toks
    refine ⟨dedupIdxGo_sublist toks 0 [], fun c => ?_, dedupIdxGo_length toks 0 [],
      fun r hr => ?_⟩
    · have h := dedupIdxGo_filter_take toks 0 [] c
      simpa using h
    · obtain ⟨h1, t, h2, h3, h4⟩ := dedupIdxGo_snd_records toks 0 [] r hr
      exact ⟨t, by simpa using h2, h3, h4⟩
  · decide

/-- C6 witness: the removal record of the duplicate example points at the
second entry, with id 9 and content `"X"`. -/
theorem c6_witness :
    ∃ t, ([dupTokA, dupTokB] : List Tok)[1]? = some t ∧
      t.id = some 9 ∧ t.content = some ['X'] :=
  (c6_dedup_first_occurrence.1 [dupTokA, dupTokB]).2.2.2 (1, some 9, ['X']) (by decide)

/-- C7: for each of the four fixed corrupted self-test samples, the Text
Repair Engine followed by the Marker Canonicalizer detects the marker and
returns exactly its canonical string. -/
theorem c7_selftest_canonicalization :
    looks_like_one_of_four_chat_markers (demojibake_and_normalize sampleBOS) =
        (true, CANON_BOS) ∧
    looks_like_one_of_four_chat_markers (demojibake_and_normalize sampleEOS) =
        (true, CANON_EOS) ∧
    looks_like_one_of_four_chat_markers (demojibake_and_normalize sampleUSER) =
        (true, CANON_USER) ∧
    looks_like_one_of_four_chat_markers (demojibake_and_normalize sampleASSISTANT) =
        (true, CANON_ASSISTANT) := by
  decide

/-- C8: template processing. Each `<...>` span (up to the first closing
bracket, with no `<` before it) is passed through the full cleanup pipeline
independently while the characters around it pass through the scan
verbatim; the concrete ASCII-bar template rewrites its span to the
canonical UserTurn marker and keeps the prose. -/
theorem c8_template_spans :
    (∀ a seg b : PyStr, '<' ∉ a → '>' ∉ seg →
      scanSegs (a ++ '<' :: (seg ++ '>' :: b)).length (a ++ '<' :: (seg ++ '>' :: b)) =
        a ++ cleanup_marker_like_string ('<' :: (seg ++ ['>'])) ++ scanSegs b.length b) ∧
    fix_markers_in_text ("Hello <|User|> world".data) =
      "Hello ".data ++ CANON_USER ++ " world".data := by
  refine ⟨fun a seg b ha hseg =>
    scanSegs_decompose a seg b _ (Nat.le_refl _) ha hseg, ?_⟩
  decide

/-- C8 witness: the span decomposition at the concrete template. -/
theorem c8_witness :
    scanSegs ("Hello ".data ++ '<' :: ("|User|".data ++ '>' :: " world".data)).length
        ("Hello ".data ++ '<' :: ("|User|".data ++ '>' :: " world".data)) =
      "Hello ".data ++ cleanup_marker_like_string ('<' :: ("|User|".data ++ ['>'])) ++
        scanSegs (" world".data.length) (" world".data) :=
  c8_template_spans.1 ("Hello ".data) ("|User|".data) (" world".data) (by decide) (by decide)

/-- C9 (amended): an added-token entry whose content equals the canonical
BOS marker with `special=false` is silently corrected by the main
token-collection pass (its flag is forced to true, its content kept), so
the flag-validation check of step 6.1 reports nothing on the output of the
pass — it can only fire for an entry the pass did not process, which does
not exist in this program. -/
theorem c9_flag_check_never_fires :
    (∀ toks : List Tok, flagErrs (passSurvivors toks) = []) ∧
    (processTok bosNoSpecialTok).content = some CANON_BOS ∧
    (processTok bosNoSpecialTok).special = some true := by
  refine ⟨fun toks => flagErrsGo_nil (passSurvivors toks) 0 (passSurvivors_flagInv toks),
    ?_, ?_⟩ <;> decide

/-- C9 counterexample: on a document whose only token entry has canonical
BOS content and `special=false`, the validation pass reports no error at
all — the flag was corrected, not flagged. -/
theorem c9_counterexample :
    flagErrs (passSurvivors [bosNoSpecialTok]) = [] ∧
    passSurvivors [bosNoSpecialTok] =
      [{ id := some 0, content := some CANON_BOS, special := some true,
         normalized := some false }] := by
  decide

/-- C10: the repair engine silently deletes `"é"` — a string with no known
corruption pattern and no marker character — because the byte
reinterpretation candidates drop it and tie with the identity candidate
under the score, the tie breaking toward the earlier candidate. -/
theorem c10_repair_deletes_eacute :
    demojibake_and_normalize ("é".data) = [] ∧
    "é".data.length = 1 ∧
    has_mojibake_remnants ("é".data) = false ∧
    "é".data.contains FULLWIDTH_BAR = false ∧
    "é".data.contains SPM_BLOCK = false ∧
    demojCandidates ("é".data) = [[], [], "é".data] ∧
    score [] = score ("é".data) := by
  decide

/-- C4: the Marker Canonicalizer contract. For an angle-shaped string the
detector answers `(true, canonical marker)` exactly when the inner payload,
with ASCII bars substituted by the full-width bar, equals that marker's
payload; in every other case — a payload matching none of the four, or a
string not of the shape — it answers `(false, s)` with `s` unchanged. -/
theorem c4_marker_canonicalizer (s : PyStr) :
    (angleShaped s →
      ((looks_like_one_of_four_chat_markers s = (true, CANON_BOS) ↔
          substAsciiBar ((s.drop 1).dropLast) = payloadBOS) ∧
       (looks_like_one_of_four_chat_markers s = (true, CANON_EOS) ↔
          substAsciiBar ((s.drop 1).dropLast) = payloadEOS) ∧
       (looks_like_one_of_four_chat_markers s = (true, CANON_USER) ↔
          substAsciiBar ((s.drop 1).dropLast) = payloadUSER) ∧
       (looks_like_one_of_four_chat_markers s = (true, CANON_ASSISTANT) ↔
          substAsciiBar ((s.drop 1).dropLast) = payloadASSISTANT) ∧
       (substAsciiBar ((s.drop 1).dropLast) ∉
           [payloadBOS, payloadEOS, payloadUSER, payloadASSISTANT] →
         looks_like_one_of_four_chat_markers s = (false, s)))) ∧
    (¬ angleShaped s → looks_like_one_of_four_chat_markers s = (false, s)) := by
  by_cases hs : angleShaped s
  · obtain ⟨hh, hl, hlen⟩ := hs
    by_cases h3 : s.length < 3
    · have hs2 : s = ['<', '>'] := by
        cases s with
        | nil => simp at hlen
        | cons c cs =>
          cases cs with
          | nil => simp at hlen
          | cons d ds =>
            cases ds with
            | nil =>
              simp only [List.head?_cons, Option.some.injEq] at hh
              have hd : d = '>' := by
                simpa [List.getLast?] using hl
              rw [hh, hd]
            | cons e es => simp only [List.length_cons] at h3; omega
      subst hs2
      exact ⟨fun _ => by decide, fun hn => absurd ⟨hh, hl, hlen⟩ hn⟩
    · have hcond : (s.head? == some '<' && s.getLast? == some '>' &&
          decide (2 ≤ s.length)) = true := by
        simp [hh, hl, hlen]
      have hne1 : CANON_BOS ≠ CANON_EOS := by decide
      have hne2 : CANON_BOS ≠ CANON_USER := by decide
      have hne3 : CANON_BOS ≠ CANON_ASSISTANT := by decide
      have hne4 : CANON_EOS ≠ CANON_USER := by decide
      have hne5 : CANON_EOS ≠ CANON_ASSISTANT := by decide
      have hne6 : CANON_USER ≠ CANON_ASSISTANT := by decide
      have hpe1 : payloadBOS ≠ payloadEOS := by decide
      have hpe2 : payloadBOS ≠ payloadUSER := by decide
      have hpe3 : payloadBOS ≠ payloadASSISTANT := by decide
      have hpe4 : payloadEOS ≠ payloadUSER := by decide
      have hpe5 : payloadEOS ≠ payloadASSISTANT := by decide
      have hpe6 : payloadUSER ≠ payloadASSISTANT := by decide
      refine ⟨fun _ => ?_, fun hn => absurd ⟨hh, hl, hlen⟩ hn⟩
      simp only [looks_like_one_of_four_chat_markers, if_neg h3, hcond, if_true]
      set u := substAsciiBar ((s.drop 1).dropLast) with hu
      by_cases h1 : u = payloadBOS
      · simp [h1, hne1, hne2, hne3, hpe1, hpe2, hpe3]
      · by_cases h2 : u = payloadEOS
        · simp [h1, h2, hne1.symm, hne4, hne5, hpe1.symm, hpe4, hpe5]
        · by_cases h4 : u = payloadUSER
          · simp [h1, h2, h4, hne2.symm, hne4.symm, hne6, hpe2.symm, hpe4.symm, hpe6]
          · by_cases h5 : u = payloadASSISTANT
            · simp [h1, h2, h4, h5, hne3.symm, hne5.symm, hne6.symm,
                hpe3.symm, hpe5.symm, hpe6.symm]
            · simp [h1, h2, h4, h5]
  · refine ⟨fun hp => absurd hp hs, fun _ => ?_⟩
    unfold looks_like_one_of_four_chat_markers
    by_cases h3 : s.length < 3
    · rw [if_pos h3]
    · rw [if_neg h3]
      have hcond : (s.head? == some '<' && s.getLast? == some '>' &&
          decide (2 ≤ s.length)) = false := by
        rcases Bool.eq_false_or_eq_true
          (s.head? == some '<' && s.getLast? == some '>' && decide (2 ≤ s.length)) with h | h
        · exfalso
          apply hs
          simp only [Bool.and_eq_true, beq_iff_eq, decide_eq_true_eq] at h
          exact ⟨h.1.1, h.1.2, h.2⟩
        · exact h
      rw [hcond]
      rfl

/-- C4 witness: the contract applied at the ASCII-bar UserTurn token. -/
theorem c4_witness :
    looks_like_one_of_four_chat_markers ("<|User|>".data) = (true, CANON_USER) :=
  (((c4_marker_canonicalizer ("<|User|>".data)).1 (by decide)).2.2.1).mpr (by decide)

/-- The companion-map step never emits a primary-document write event. -/
lemma primaryWrite_not_spmapStep (dry : Bool) (f : SpMapFile) :
    WEvent.primaryWrite ∉ (spmapExistsStep dry f).2 := by
  unfold spmapExistsStep
  by_cases hp : f.parseOk
  · rw [if_pos hp]
    show WEvent.primaryWrite ∉
      (if dry then [] else [WEvent.spmapBackup, WEvent.spmapWrite])
    cases dry <;> decide
  · rw [if_neg hp]
    decide

/-- The template-config step never emits a primary-document write event. -/
lemma primaryWrite_not_tcfgStep (dry : Bool) (o : Option TcfgFile) :
    WEvent.primaryWrite ∉ (tcfgStep dry o).2 := by
  cases o with
  | none => simp [tcfgStep]
  | some f =>
    show WEvent.primaryWrite ∉ ((if f.parseOk then
      match f.template with
      | some s =>
        if fix_markers_in_text s ≠ s then
          (([] : List Err), if dry then [] else [WEvent.tcfgBackup, WEvent.tcfgWrite])
        else ([], [])
      | none => ([], [])
      else ([Err.tcfgFail], []))).2
    by_cases hp : f.parseOk
    · rw [if_pos hp]
      cases ht : f.template with
      | none =>
        show WEvent.primaryWrite ∉ ([] : List WEvent)
        decide
      | some s =>
        show WEvent.primaryWrite ∉ (if fix_markers_in_text s ≠ s then
          (([] : List Err), if dry then [] else [WEvent.tcfgBackup, WEvent.tcfgWrite])
          else ([], [])).2
        by_cases hch : fix_markers_in_text s ≠ s
        · rw [if_pos hch]
          show WEvent.primaryWrite ∉
            (if dry then [] else [WEvent.tcfgBackup, WEvent.tcfgWrite])
          cases dry <;> decide
        · rw [if_neg hch]
          decide
    · rw [if_neg hp]
      decide

/-- The validation gate: either no errors were accumulated, or the run
exits 1 and writes nothing beyond what it received. -/
lemma gateStep_spec (dry : Bool) (errs : List Err) (writes : List WEvent)
    (hw : WEvent.primaryWrite ∉ writes) :
    (gateStep dry errs writes).errors = [] ∨
      (WEvent.primaryWrite ∉ (gateStep dry errs writes).writes ∧
        (gateStep dry errs writes).code = 1) := by
  unfold gateStep
  by_cases he : errs.isEmpty
  · rw [if_neg (by simpa using he)]
    cases dry with
    | false => rw [if_neg (by simp)]; left; rfl
    | true => rw [if_pos rfl]; left; rfl
  · rw [if_pos (by simpa using he)]
    exact Or.inr ⟨hw, rfl⟩

/-- Case analysis of a run: either the validation-error set ends empty, or
the run exits with code 1 without a primary-document write. -/
lemma runMain_errors_or_suppressed (inp : RunInput) :
    (runMain inp).errors = [] ∨
      (WEvent.primaryWrite ∉ (runMain inp).writes ∧ (runMain inp).code = 1) := by
  have hst : selfTestErrs = [] := by decide
  obtain ⟨dry, found, pOk, atoks, st, spmap, tcfg, vocab, pats⟩ := inp
  cases found with
  | false =>
    cases dry with
    | false => left; rfl
    | true => left; simp [runMain, hst]
  | true =>
    cases pOk with
    | false => left; rfl
    | true =>
      cases atoks with
      | none =>
        simp only [runMain, List.isEmpty_nil, reduceIte]
        refine gateStep_spec dry _ _ ?_
        intro hmem
        rcases List.mem_append.mp hmem with h | h
        · cases spmap with
          | none => simp at h
          | some f => exact primaryWrite_not_spmapStep dry f h
        · exact primaryWrite_not_tcfgStep dry tcfg h
      | some l =>
        have hid := idCheckErrs_nil l
        simp only [runMain, hid, List.isEmpty_nil, reduceIte]
        refine gateStep_spec dry _ _ ?_
        intro hmem
        rcases List.mem_append.mp hmem with h | h
        · cases spmap with
          | none => simp at h
          | some f => exact primaryWrite_not_spmapStep dry f h
        · exact primaryWrite_not_tcfgStep dry tcfg h

/-- C2 (amended): a non-empty validation-error set at the end of the pass
suppresses the primary tokenizer write and makes the run exit with the
validation-failure code; it does not suppress the companion special-token-
map and template-config writes, which happen before the gate (see the
counterexample). -/
theorem c2_validation_suppresses_primary_write (inp : RunInput)
    (h : (runMain inp).errors ≠ []) :
    WEvent.primaryWrite ∉ (runMain inp).writes ∧ (runMain inp).code = 1 := by
  rcases runMain_errors_or_suppressed inp with he | hr
  · exact absurd he h
  · exact hr

/-- C2 witness: suppression of the primary write in the bad-bos-token run. -/
theorem c2_witness :
    WEvent.primaryWrite ∉ (runMain spmapBadBosInput).writes ∧
      (runMain spmapBadBosInput).code = 1 :=
  c2_validation_suppresses_primary_write spmapBadBosInput (by decide)

/-- C2 counterexample: a run that ends with a non-empty validation-error
set and has nevertheless backed up and rewritten the companion
special-token-map file before the gate, contradicting "no file is written". -/
theorem c2_counterexample :
    (runMain spmapBadBosInput).errors ≠ [] ∧
    WEvent.spmapWrite ∈ (runMain spmapBadBosInput).writes ∧
    WEvent.spmapBackup ∈ (runMain spmapBadBosInput).writes := by
  decide


end FixTok
